import Mathlib

/-!
Verification of the MoeCall live-call pipeline (the `useGeminiLive` hook,
`App.tsx` start flow, and the `Avatar` lip-sync driver) against its
natural-language specification.  Times, durations and volumes are modelled
as rationals; audio buffers are identified by natural-number ids.
-/

namespace MoeCall

/-! ## Inbound audio path: the `onmessage` callback of `useGeminiLive`

A server message may carry an inline audio payload (modelled by the
duration of the decoded buffer) and/or the `interrupted` flag, mirroring
`msg.serverContent?.modelTurn?.parts?.[0]?.inlineData?.data` and
`msg.serverContent?.interrupted`. -/

structure ServerMessage where
  inlineAudio : Option ℚ
  interrupted : Bool
deriving DecidableEq

/-- The mutable refs touched by the inbound path: `nextStartTimeRef`,
`sourcesRef` (the set of active `AudioBufferSourceNode`s, identified by
ids allocated from `nextId`), and the last value reported through
`onSpeakingChanged`. -/
structure AudioState where
  nextStartTime : ℚ
  sources : List Nat
  speaking : Bool
  nextId : Nat
deriving DecidableEq

/-- A scheduled playback: the `source.start(...)` time and the buffer's
duration. -/
structure Scheduled where
  start : ℚ
  duration : ℚ
deriving DecidableEq

def initialAudioState : AudioState :=
  { nextStartTime := 0, sources := [], speaking := false, nextId := 0 }

/-- One run of the `onmessage` callback at wall-clock time `now`
(`audioCtx.currentTime`).  If audio is present: report speaking, clamp
`nextStartTime` up to `now`, start the decoded buffer there, advance
`nextStartTime` by its duration and add the source to the active set.
Then, if `interrupted` is set: stop and clear every active source, reset
`nextStartTime` to zero and report not-speaking.  Also returns the
scheduling decision made for the fragment, if any. -/
def handleMessage (now : ℚ) (msg : ServerMessage) (s : AudioState) :
    AudioState × Option Scheduled :=
  let r :=
    match msg.inlineAudio with
    | some d =>
        let start := max s.nextStartTime now
        ({ s with speaking := true,
                  nextStartTime := start + d,
                  sources := s.sources ++ [s.nextId],
                  nextId := s.nextId + 1 },
         some { start := start, duration := d })
    | none => (s, none)
  if msg.interrupted then
    ({ r.1 with sources := [], nextStartTime := 0, speaking := false }, r.2)
  else r

/-- The `'ended'` listener attached to each source: remove the source
from the active set and, if the set became empty, report not-speaking. -/
def handleEnded (id : Nat) (s : AudioState) : AudioState :=
  let sources := s.sources.erase id
  { s with sources := sources,
           speaking := if sources.isEmpty then false else s.speaking }

/-- Process a list of `(currentTime, message)` pairs in arrival order,
collecting the scheduling decisions. -/
def runMessages (s : AudioState) :
    List (ℚ × ServerMessage) → AudioState × List Scheduled
  | [] => (s, [])
  | (now, m) :: rest =>
      let r := handleMessage now m s
      let rr := runMessages r.1 rest
      (rr.1, r.2.toList ++ rr.2)

/-- An event on the inbound callback path: either a server message or a
natural completion of one scheduled source. -/
inductive LiveEvent
  | message (now : ℚ) (msg : ServerMessage)
  | ended (id : Nat)
deriving DecidableEq

def stepEvent (s : AudioState) : LiveEvent → AudioState
  | .message now msg => (handleMessage now msg s).1
  | .ended id => handleEnded id s

def runEvents (evts : List LiveEvent) : AudioState :=
  evts.foldl stepEvent initialAudioState

theorem handleMessage_audio (now : ℚ) (m : ServerMessage) (s : AudioState)
    (d : ℚ) (ha : m.inlineAudio = some d) (hi : m.interrupted = false) :
    handleMessage now m s =
      ({ s with speaking := true,
                nextStartTime := max s.nextStartTime now + d,
                sources := s.sources ++ [s.nextId],
                nextId := s.nextId + 1 },
       some { start := max s.nextStartTime now, duration := d }) := by
  simp [handleMessage, ha, hi]

theorem handleMessage_silent (now : ℚ) (m : ServerMessage) (s : AudioState)
    (ha : m.inlineAudio = none) (hi : m.interrupted = false) :
    handleMessage now m s = (s, none) := by
  simp [handleMessage, ha, hi]

/-- Without an interruption, the first fragment scheduled by a run starts
no earlier than the incoming `nextStartTime`. -/
theorem runMessages_head_start (msgs : List (ℚ × ServerMessage)) :
    ∀ s : AudioState, (∀ p ∈ msgs, p.2.interrupted = false) →
      ∀ a ∈ (runMessages s msgs).2.head?, s.nextStartTime ≤ a.start := by
  induction msgs with
  | nil => intro s _ a ha; simp [runMessages] at ha
  | cons p rest ih =>
      intro s h a ha
      obtain ⟨now, m⟩ := p
      have hm : m.interrupted = false := h (now, m) (by simp)
      have hrest : ∀ q ∈ rest, q.2.interrupted = false :=
        fun q hq => h q (by simp [hq])
      cases haud : m.inlineAudio with
      | some d =>
          rw [runMessages] at ha
          simp only [handleMessage_audio now m s d haud hm] at ha
          simp only [Option.toList_some, List.cons_append, List.nil_append,
            List.head?_cons, Option.mem_def, Option.some.injEq] at ha
          subst ha
          exact le_max_left _ _
      | none =>
          rw [runMessages] at ha
          simp only [handleMessage_silent now m s haud hm] at ha
          simp only [Option.toList_none, List.nil_append] at ha
          exact ih s hrest a ha

/-- Without an interruption, consecutive scheduled fragments never
overlap: each fragment's start is at or after the previous fragment's
scheduled end. -/
theorem runMessages_chain (msgs : List (ℚ × ServerMessage)) :
    ∀ s : AudioState, (∀ p ∈ msgs, p.2.interrupted = false) →
      List.Chain' (fun a b => a.start + a.duration ≤ b.start)
        (runMessages s msgs).2 := by
  induction msgs with
  | nil => intro s _; simp [runMessages]
  | cons p rest ih =>
      intro s h
      obtain ⟨now, m⟩ := p
      have hm : m.interrupted = false := h (now, m) (by simp)
      have hrest : ∀ q ∈ rest, q.2.interrupted = false :=
        fun q hq => h q (by simp [hq])
      cases haud : m.inlineAudio with
      | some d =>
          rw [runMessages]
          simp only [handleMessage_audio now m s d haud hm]
          simp only [Option.toList_some, List.cons_append, List.nil_append]
          rw [List.chain'_cons']
          constructor
          · intro b hb
            have := runMessages_head_start rest _ hrest b hb
            simpa using this
          · exact ih _ hrest
      | none =>
          rw [runMessages]
          simp only [handleMessage_silent now m s haud hm]
          simp only [Option.toList_none, List.nil_append]
          exact ih s hrest

theorem stepEvent_speaking (s : AudioState) (e : LiveEvent)
    (h : s.speaking = !s.sources.isEmpty) :
    (stepEvent s e).speaking = !(stepEvent s e).sources.isEmpty := by
  cases e with
  | message now m =>
      cases haud : m.inlineAudio <;> cases hi : m.interrupted <;>
        simp [stepEvent, handleMessage, haud, hi, h]
  | ended id =>
      simp only [stepEvent, handleEnded]
      cases hE : (s.sources.erase id).isEmpty with
      | true => simp [hE]
      | false =>
          have hS : s.sources.isEmpty = false := by
            cases hS : s.sources.isEmpty with
            | false => rfl
            | true =>
                rw [List.isEmpty_iff] at hS
                rw [hS] at hE
                simp at hE
          simp [hE, h, hS]

theorem foldl_stepEvent_speaking (evts : List LiveEvent) :
    ∀ s : AudioState, s.speaking = !s.sources.isEmpty →
      (evts.foldl stepEvent s).speaking =
        !(evts.foldl stepEvent s).sources.isEmpty := by
  induction evts with
  | nil => intro s h; simpa using h
  | cons e rest ih =>
      intro s h
      exact ih (stepEvent s e) (stepEvent_speaking s e h)

end MoeCall

namespace MoeCall

/-! ## Claim theorems for the inbound audio path -/

/-- C1: for every sequence of inbound audio fragments processed by the
message handler with no intervening interruption, each fragment is
scheduled to start at `max(current scheduled end, wall clock now)` and the
scheduled end is then advanced by that fragment's duration, so the
scheduled start time of fragment `i+1` is at or after the scheduled end
time of fragment `i`. -/
theorem inbound_schedule_no_overlap
    (msgs : List (ℚ × ServerMessage))
    (h : ∀ p ∈ msgs, p.2.interrupted = false) (s : AudioState)
    (now : ℚ) (m : ServerMessage) (d : ℚ) (t : AudioState)
    (ha : m.inlineAudio = some d) (hi : m.interrupted = false) :
    List.Chain' (fun a b => a.start + a.duration ≤ b.start)
      (runMessages s msgs).2 ∧
    (handleMessage now m t).2 =
      some { start := max t.nextStartTime now, duration := d } ∧
    (handleMessage now m t).1.nextStartTime = max t.nextStartTime now + d := by
  refine ⟨runMessages_chain msgs s h, ?_, ?_⟩ <;>
    rw [handleMessage_audio now m t d ha hi]

/-- Witness for C1: a concrete three-fragment run starting from the fresh
state, plus one concrete handler step. -/
theorem inbound_schedule_no_overlap_witness :
    (∀ p ∈ ([(0, ⟨some 2, false⟩), (1, ⟨some 3, false⟩),
             (10, ⟨some 1, false⟩)] : List (ℚ × ServerMessage)),
        p.2.interrupted = false) ∧
    (⟨some 2, false⟩ : ServerMessage).inlineAudio = some 2 ∧
    (⟨some 2, false⟩ : ServerMessage).interrupted = false ∧
    (List.Chain' (fun a b => a.start + a.duration ≤ b.start)
      (runMessages initialAudioState
        [(0, ⟨some 2, false⟩), (1, ⟨some 3, false⟩),
         (10, ⟨some 1, false⟩)]).2 ∧
    (handleMessage 7 ⟨some 2, false⟩ ⟨4, [0], true, 1⟩).2 =
      some { start := max (⟨4, [0], true, 1⟩ : AudioState).nextStartTime 7,
             duration := 2 } ∧
    (handleMessage 7 ⟨some 2, false⟩ ⟨4, [0], true, 1⟩).1.nextStartTime =
      max (⟨4, [0], true, 1⟩ : AudioState).nextStartTime 7 + 2) :=
  ⟨by decide, rfl, rfl,
    inbound_schedule_no_overlap _ (by decide) initialAudioState
      7 ⟨some 2, false⟩ 2 ⟨4, [0], true, 1⟩ rfl rfl⟩

/-- C2: after the message handler processes a server message carrying the
interruption signal, the active-buffer set is empty and the scheduled
clock is exactly zero, regardless of the prior state. -/
theorem interruption_clears_playback (now : ℚ) (m : ServerMessage)
    (s : AudioState) (h : m.interrupted = true) :
    (handleMessage now m s).1.sources = [] ∧
    (handleMessage now m s).1.nextStartTime = 0 := by
  cases haud : m.inlineAudio <;> simp [handleMessage, h, haud]

/-- Witness for C2: an interruption arriving while three buffers are
scheduled and pending. -/
theorem interruption_clears_playback_witness :
    (⟨none, true⟩ : ServerMessage).interrupted = true ∧
    ((handleMessage 7 ⟨none, true⟩ ⟨5, [0, 1, 2], true, 3⟩).1.sources = [] ∧
     (handleMessage 7 ⟨none, true⟩ ⟨5, [0, 1, 2], true, 3⟩).1.nextStartTime
       = 0) :=
  ⟨rfl, interruption_clears_playback 7 ⟨none, true⟩ ⟨5, [0, 1, 2], true, 3⟩ rfl⟩

/-- C6: after every sequence of message-handler runs, natural buffer
completions and interruptions, the speaking signal reported via
`onSpeakingChanged` equals whether the active playback set is non-empty. -/
theorem speaking_matches_active_set (evts : List LiveEvent) :
    (runEvents evts).speaking = !(runEvents evts).sources.isEmpty :=
  foldl_stepEvent_speaking evts initialAudioState rfl

/-! ## Lifecycle: `cleanup`, `initSession` and `retry`

The hook's refs (`scriptProcessorRef`, `inputSourceRef`, `outputNodeRef`,
`sourcesRef`, `audioContextRef`, `inputAudioContextRef`,
`nextStartTimeRef`) plus its React state (`isConnected`, `error`,
`retryCount`) form the per-call state below.  An `AudioContext` is either
running or closed; `close()` throws an `InvalidStateError` on a context
that is already closed, which is why `cleanup` guards the call with
`state !== 'closed'`. -/

inductive CtxState
  | running
  | closed
deriving DecidableEq

/-- A `ScriptProcessorNode`: whether it is connected into the graph and
whether an `onaudioprocess` handler is installed. -/
structure ProcessorState where
  connected : Bool
  hasHandler : Bool
deriving DecidableEq

/-- A plain audio node (`MediaStreamAudioSourceNode` / `GainNode`):
whether it is connected into the graph. -/
structure NodeState where
  connected : Bool
deriving DecidableEq

structure HookState where
  scriptProcessor : Option ProcessorState
  inputSource : Option NodeState
  outputNode : Option NodeState
  activeSources : List Nat
  audioCtx : Option CtxState
  inputCtx : Option CtxState
  nextStartTime : ℚ
  isConnected : Bool
  error : Option String
  retryCount : Nat
deriving DecidableEq

def initialHookState : HookState :=
  { scriptProcessor := none, inputSource := none, outputNode := none,
    activeSources := [], audioCtx := none, inputCtx := none,
    nextStartTime := 0, isConnected := false, error := none,
    retryCount := 0 }

/-- `AudioContext.close()`: throws on an already-closed context. -/
def closeCtx : CtxState → Except String CtxState
  | CtxState.running => Except.ok CtxState.closed
  | CtxState.closed => Except.error "InvalidStateError: context already closed"

/-- The guarded close in `cleanup`:
`if (ref.current && ref.current.state !== 'closed') ref.current.close()`. -/
def closeGuarded : Option CtxState → Except String (Option CtxState)
  | none => Except.ok none
  | some c =>
      if c = CtxState.closed then Except.ok (some c)
      else (closeCtx c).map some

/-- The hook's `cleanup` callback: disconnect the script processor and
null its handler, disconnect the input source and the output node, stop
and clear every active buffer source, close both audio contexts when not
already closed, and mark the session disconnected. -/
def cleanup (s : HookState) : Except String HookState := do
  let audioCtx' ← closeGuarded s.audioCtx
  let inputCtx' ← closeGuarded s.inputCtx
  Except.ok { s with
    scriptProcessor :=
      s.scriptProcessor.map fun _ => { connected := false, hasHandler := false },
    inputSource := s.inputSource.map fun _ => { connected := false },
    outputNode := s.outputNode.map fun _ => { connected := false },
    activeSources := [],
    audioCtx := audioCtx',
    inputCtx := inputCtx',
    isConnected := false }

/-- Where `initSession` can fail: `getUserMedia` rejecting (permission
denied or device missing) or `ai.live.connect` throwing. -/
inductive SetupFailure
  | micDenied (msg : String)
  | connectFailed (msg : String)
deriving DecidableEq

/-- The nodes built by `initSession` once the microphone stream is
available: the media-stream source and the script processor (connected
into the graph only later, inside `onopen`) and the gain output node
(connected to the destination immediately). -/
def installNodes (s : HookState) : HookState :=
  { s with
    inputSource := some { connected := false },
    scriptProcessor := some { connected := false, hasHandler := false },
    outputNode := some { connected := true } }

/-- The hook's `initSession`: create the two audio contexts (24 kHz
output, 16 kHz input) and store them in the refs, then request the
microphone, build the node graph and open the remote session.  Any
exception lands in the `catch` block, which only records
`err.message` as the error string; `isConnected` is untouched (it is set
only by the `onopen`/`onclose` callbacks). -/
def initSession (s : HookState) (outcome : Option SetupFailure) : HookState :=
  let s0 := { s with audioCtx := some CtxState.running,
                     inputCtx := some CtxState.running }
  match outcome with
  | some (SetupFailure.micDenied msg) => { s0 with error := some msg }
  | some (SetupFailure.connectFailed msg) =>
      { installNodes s0 with error := some msg }
  | none => installNodes s0

/-- The hook's `retry` callback: clear the error, mark disconnected and
bump `retryCount` (which is in the effect's dependency array). -/
def retry (s : HookState) : HookState :=
  { s with error := none, isConnected := false,
           retryCount := s.retryCount + 1 }

/-- What React does when the effect's dependencies change while the call
is active: run the previous effect instance's cleanup, then the new
effect body (`initSession`). -/
def effectRerun (s : HookState) (outcome : Option SetupFailure) : HookState :=
  match cleanup s with
  | Except.ok s₁ => initSession s₁ outcome
  | Except.error _ => s

theorem closeGuarded_ok (o : Option CtxState) :
    closeGuarded o = Except.ok (o.map fun _ => CtxState.closed) := by
  match o with
  | none => rfl
  | some CtxState.running => rfl
  | some CtxState.closed => rfl

/-- `cleanup` never throws, and its result is a computable function of
the input state. -/
theorem cleanup_ok (s : HookState) :
    cleanup s = Except.ok { s with
      scriptProcessor :=
        s.scriptProcessor.map fun _ => { connected := false, hasHandler := false },
      inputSource := s.inputSource.map fun _ => { connected := false },
      outputNode := s.outputNode.map fun _ => { connected := false },
      activeSources := [],
      audioCtx := s.audioCtx.map fun _ => CtxState.closed,
      inputCtx := s.inputCtx.map fun _ => CtxState.closed,
      isConnected := false } := by
  simp [cleanup, closeGuarded_ok, Bind.bind, Except.bind]

/-! ## Claim theorems for the lifecycle -/

/-- C5: teardown is idempotent: `cleanup` never throws, running it twice
from any state yields the same final state as running it once, and
afterwards every audio node is disconnected, the active-buffer set is
empty, both audio contexts are closed and the session is marked
disconnected. -/
theorem cleanup_idempotent (s : HookState) :
    ∃ s₁, cleanup s = Except.ok s₁ ∧ cleanup s₁ = Except.ok s₁ ∧
      s₁.activeSources = [] ∧ s₁.isConnected = false ∧
      s₁.audioCtx ≠ some CtxState.running ∧
      s₁.inputCtx ≠ some CtxState.running ∧
      (∀ p ∈ s₁.scriptProcessor, p.connected = false ∧ p.hasHandler = false) ∧
      (∀ n ∈ s₁.inputSource, n.connected = false) ∧
      (∀ n ∈ s₁.outputNode, n.connected = false) := by
  refine ⟨_, cleanup_ok s, ?_, rfl, rfl, ?_, ?_, ?_, ?_, ?_⟩
  · rw [cleanup_ok]
    simp only [Option.map_map]
    exact congrArg Except.ok rfl
  · cases s.audioCtx <;> simp
  · cases s.inputCtx <;> simp
  · intro p hp
    cases hproc : s.scriptProcessor with
    | none => simp [hproc] at hp
    | some a =>
        simp only [hproc, Option.map_some', Option.mem_def,
          Option.some.injEq] at hp
        subst hp
        exact ⟨rfl, rfl⟩
  · intro n hn
    cases hsrc : s.inputSource with
    | none => simp [hsrc] at hn
    | some a =>
        simp only [hsrc, Option.map_some', Option.mem_def,
          Option.some.injEq] at hn
        subst hn
        rfl
  · intro n hn
    cases hout : s.outputNode with
    | none => simp [hout] at hn
    | some a =>
        simp only [hout, Option.map_some', Option.mem_def,
          Option.some.injEq] at hn
        subst hn
        rfl

/-- For C4, the claim's formalisation at a concrete input is false: after
a microphone-permission denial during setup, the `catch` block only
records the error string, so the status stays disconnected and the error
is set, but the two audio contexts created before `getUserMedia` are left
running (nothing closes them until the next teardown). -/
theorem setup_failure_contexts_cex :
    ¬ ((initSession initialHookState
          (some (SetupFailure.micDenied "Permission denied"))).isConnected
            = false ∧
       (initSession initialHookState
          (some (SetupFailure.micDenied "Permission denied"))).error
            = some "Permission denied" ∧
       (initSession initialHookState
          (some (SetupFailure.micDenied "Permission denied"))).audioCtx
            ≠ some CtxState.running ∧
       (initSession initialHookState
          (some (SetupFailure.micDenied "Permission denied"))).inputCtx
            ≠ some CtxState.running) := by
  decide

/-- C4 (amended): if session setup fails with a microphone-permission
denial, the connection status remains disconnected and the error string
is set to the failure's message, but the two audio-processing contexts
created during setup remain open (running) until the next teardown. -/
theorem setup_failure_state (s : HookState) (msg : String)
    (h : s.isConnected = false) :
    (initSession s (some (SetupFailure.micDenied msg))).isConnected
      = false ∧
    (initSession s (some (SetupFailure.micDenied msg))).error = some msg ∧
    (initSession s (some (SetupFailure.micDenied msg))).audioCtx
      = some CtxState.running ∧
    (initSession s (some (SetupFailure.micDenied msg))).inputCtx
      = some CtxState.running :=
  ⟨h, rfl, rfl, rfl⟩

/-- Witness for C4 (amended): permission denied from the fresh state. -/
theorem setup_failure_state_witness :
    initialHookState.isConnected = false ∧
    ((initSession initialHookState
        (some (SetupFailure.micDenied "Permission denied"))).isConnected
          = false ∧
     (initSession initialHookState
        (some (SetupFailure.micDenied "Permission denied"))).error
          = some "Permission denied" ∧
     (initSession initialHookState
        (some (SetupFailure.micDenied "Permission denied"))).audioCtx
          = some CtxState.running ∧
     (initSession initialHookState
        (some (SetupFailure.micDenied "Permission denied"))).inputCtx
          = some CtxState.running) :=
  ⟨rfl, setup_failure_state initialHookState "Permission denied" rfl⟩

/-- C7: the manual retry operation clears the error string, marks the
connection disconnected and changes `retryCount` (a dependency of the
lifecycle effect), so the effect re-runs: teardown of the previous
instance followed by a fresh setup. -/
theorem retry_restarts_lifecycle (s : HookState)
    (outcome : Option SetupFailure) :
    (retry s).error = none ∧ (retry s).isConnected = false ∧
    (retry s).retryCount = s.retryCount + 1 ∧
    (retry s).retryCount ≠ s.retryCount ∧
    ∃ s₁, cleanup (retry s) = Except.ok s₁ ∧
      effectRerun (retry s) outcome = initSession s₁ outcome := by
  refine ⟨rfl, rfl, rfl, Nat.succ_ne_self _, _, cleanup_ok (retry s), ?_⟩
  simp [effectRerun, cleanup_ok]

/-! ## Outbound path: microphone capture and forwarding

In `initSession`, `processor.onaudioprocess` is assigned and
`inputSource.connect(processor)` / `processor.connect(destination)` are
executed inside the `onopen` callback, so capture buffers reach the
handler only once the session has reported open; each captured buffer is
converted with `createPcmBlob` and forwarded through
`sessionPromise.then(session => session.sendRealtimeInput(...))`, which at
that point is an already-resolved promise, so sends happen in capture
order. -/

/-- An event on the outbound path: the session reporting open (which
installs the `onaudioprocess` handler and connects the capture graph), or
the microphone producing one 4096-sample buffer. -/
inductive MicEvent
  | sessionOpen
  | audioChunk (buf : Nat)
deriving DecidableEq

/-- Outbound bookkeeping: whether the session has reported open, whether
the capture graph is connected to the processor, the buffers the
`onaudioprocess` handler has seen (paired with whether the session was
open at capture time), and the buffers sent over the session (paired with
whether the session was open at send time). -/
structure OutboundState where
  sessionOpen : Bool
  processorActive : Bool
  captured : List (Nat × Bool)
  sent : List (Nat × Bool)
deriving DecidableEq

def initialOutboundState : OutboundState :=
  { sessionOpen := false, processorActive := false,
    captured := [], sent := [] }

/-- One outbound event.  A microphone buffer reaches the handler only
when the graph is connected; the handler forwards it immediately (the
session promise is already resolved once `onopen` has run). -/
def stepOutbound (s : OutboundState) : MicEvent → OutboundState
  | .sessionOpen => { s with sessionOpen := true, processorActive := true }
  | .audioChunk b =>
      if s.processorActive then
        { s with captured := s.captured ++ [(b, s.sessionOpen)],
                 sent := s.sent ++ [(b, s.sessionOpen)] }
      else s

def runOutbound (evts : List MicEvent) : OutboundState :=
  evts.foldl stepOutbound initialOutboundState

/-- The inductive invariant of the outbound path. -/
def OutboundInv (s : OutboundState) : Prop :=
  (s.processorActive = true → s.sessionOpen = true) ∧
  (∀ p ∈ s.captured, p.2 = true) ∧
  (∀ p ∈ s.sent, p.2 = true) ∧
  s.sent = s.captured

theorem stepOutbound_inv (s : OutboundState) (e : MicEvent)
    (h : OutboundInv s) : OutboundInv (stepOutbound s e) := by
  obtain ⟨hpo, hcap, hsent, heq⟩ := h
  cases e with
  | sessionOpen =>
      exact ⟨fun _ => rfl, hcap, hsent, heq⟩
  | audioChunk b =>
      simp only [stepOutbound]
      cases hact : s.processorActive with
      | false => exact ⟨hpo, hcap, hsent, heq⟩
      | true =>
          have hop : s.sessionOpen = true := hpo hact
          simp only [if_true]
          refine ⟨fun _ => hop, ?_, ?_, by rw [heq]⟩
          · intro p hp
            rcases List.mem_append.mp hp with h1 | h1
            · exact hcap p h1
            · rw [List.mem_singleton] at h1
              rw [h1, hop]
          · intro p hp
            rcases List.mem_append.mp hp with h1 | h1
            · exact hsent p h1
            · rw [List.mem_singleton] at h1
              rw [h1, hop]

theorem runOutbound_inv (evts : List MicEvent) :
    OutboundInv (runOutbound evts) := by
  suffices h : ∀ s, OutboundInv s → OutboundInv (evts.foldl stepOutbound s) by
    exact h initialOutboundState
      ⟨fun h => by simp [initialOutboundState] at h,
       by simp [initialOutboundState],
       by simp [initialOutboundState], rfl⟩
  induction evts with
  | nil => intro s h; exact h
  | cons e rest ih => intro s h; exact ih _ (stepOutbound_inv s e h)

/-- C3: in every run of the call lifecycle, no captured microphone buffer
is forwarded before the session reports open, nothing that the capture
handler sees is captured before open (the capture graph is only connected
inside `onopen`, so the set of pre-open captures is empty and none can be
dropped), and the forwarded buffers are exactly the captured buffers in
capture order. -/
theorem outbound_in_order_after_open (evts : List MicEvent) :
    (∀ p ∈ (runOutbound evts).sent, p.2 = true) ∧
    (∀ p ∈ (runOutbound evts).captured, p.2 = true) ∧
    (runOutbound evts).sent = (runOutbound evts).captured := by
  obtain ⟨-, hcap, hsent, heq⟩ := runOutbound_inv evts
  exact ⟨hsent, hcap, heq⟩

/-! ## `App.tsx`: the start flow -/

inductive AppStep
  | setup
  | generating
  | call
deriving DecidableEq

/-- The `AppState` interface of `types.ts`. -/
structure AppState where
  step : AppStep
  apiKey : String
  characterName : String
  scenario : String
  personality : String
  vrmUrl : Option String
  backgroundUrl : Option String
deriving DecidableEq

/-- The background-selection mode of the setup screen. -/
inductive BgMode
  | upload
  | generate
deriving DecidableEq

/-- The side effect initiated by the start flow. -/
inductive StartAction
  | noop
  | generationRequest
  | enterCall
deriving DecidableEq

/-- `generateBackground`: bail out when the scenario or the API key is
empty; otherwise move to the `generating` step and issue the image
request. -/
def generateBackground (s : AppState) : AppState × StartAction :=
  if s.scenario = "" ∨ s.apiKey = "" then (s, StartAction.noop)
  else ({ s with step := AppStep.generating }, StartAction.generationRequest)

/-- `handleStart`: return early when the VRM url, the scenario or the API
key is missing; otherwise either generate a background or enter the call
directly, depending on the background mode. -/
def handleStart (s : AppState) (bgMode : BgMode) : AppState × StartAction :=
  if s.vrmUrl = none ∨ s.scenario = "" ∨ s.apiKey = "" then
    (s, StartAction.noop)
  else if bgMode = BgMode.generate then generateBackground s
  else ({ s with step := AppStep.call }, StartAction.enterCall)

/-- C9: whenever the VRM model URL is null, the scenario text is empty or
the API key is empty, the start operation leaves the application state
unchanged and initiates nothing. -/
theorem handleStart_invalid_frame (s : AppState) (bgMode : BgMode)
    (h : s.vrmUrl = none ∨ s.scenario = "" ∨ s.apiKey = "") :
    handleStart s bgMode = (s, StartAction.noop) := by
  simp [handleStart, h]

/-- Witness for C9: a state with a scenario and an API key but no VRM
model loaded. -/
theorem handleStart_invalid_frame_witness :
    ((⟨AppStep.setup, "key", "Miku", "a cafe chat", "Friendly", none,
       none⟩ : AppState).vrmUrl = none ∨
     (⟨AppStep.setup, "key", "Miku", "a cafe chat", "Friendly", none,
       none⟩ : AppState).scenario = "" ∨
     (⟨AppStep.setup, "key", "Miku", "a cafe chat", "Friendly", none,
       none⟩ : AppState).apiKey = "") ∧
    handleStart
      ⟨AppStep.setup, "key", "Miku", "a cafe chat", "Friendly", none, none⟩
      BgMode.generate =
      (⟨AppStep.setup, "key", "Miku", "a cafe chat", "Friendly", none,
        none⟩, StartAction.noop) :=
  ⟨Or.inl rfl,
   handleStart_invalid_frame
     ⟨AppStep.setup, "key", "Miku", "a cafe chat", "Friendly", none, none⟩
     BgMode.generate (Or.inl rfl)⟩

/-! ## `Avatar.tsx`: the per-frame lip-sync driver

`useFrame` reads an average volume from the analyser, scales it by the
expression factor, resets the five vowel blend-shapes and then drives
`aa` (plus a wobble-selected `oh` or `ih`) from the scaled volume.
`average` is the value computed from the analyser's frequency data and
`wobble` is `Math.sin(time * 20)`. -/

/-- The five vowel blend-shape values set by one lip-sync frame. -/
structure Vowels where
  aa : ℚ
  ih : ℚ
  ou : ℚ
  ee : ℚ
  oh : ℚ
deriving DecidableEq

/-- One frame of the lip-sync logic: `rawVolume = min(1, average/100)`,
`volume = rawVolume * expressionFactor`; all five vowels are reset to
zero; when `volume > 0.05`, `aa` is set to `min(1, volume * 1.5)` and the
wobble picks `oh` (when above 0.5) or `ih` (when below -0.5) as a
secondary vowel. -/
def lipSyncFrame (average expressionFactor wobble : ℚ) : Vowels :=
  let rawVolume := min 1 (average / 100)
  let volume := rawVolume * expressionFactor
  let v : Vowels := { aa := 0, ih := 0, ou := 0, ee := 0, oh := 0 }
  if 5/100 < volume then
    let openness := min 1 (volume * (3/2))
    let v := { v with aa := openness }
    if 1/2 < wobble then { v with oh := openness * (1/2) }
    else if wobble < -(1/2) then { v with ih := openness * (3/10) }
    else v
  else v

theorem lipSyncFrame_quiet (average expressionFactor wobble : ℚ)
    (h : ¬ 5/100 < min 1 (average / 100) * expressionFactor) :
    lipSyncFrame average expressionFactor wobble =
      { aa := 0, ih := 0, ou := 0, ee := 0, oh := 0 } := by
  simp only [lipSyncFrame]
  rw [if_neg h]

theorem lipSyncFrame_loud_oh (average expressionFactor wobble : ℚ)
    (h : 5/100 < min 1 (average / 100) * expressionFactor)
    (hw : 1/2 < wobble) :
    lipSyncFrame average expressionFactor wobble =
      { aa := min 1 (min 1 (average / 100) * expressionFactor * (3/2)),
        ih := 0, ou := 0, ee := 0,
        oh := min 1 (min 1 (average / 100) * expressionFactor * (3/2))
                * (1/2) } := by
  simp only [lipSyncFrame]
  rw [if_pos h, if_pos hw]

theorem lipSyncFrame_loud_ih (average expressionFactor wobble : ℚ)
    (h : 5/100 < min 1 (average / 100) * expressionFactor)
    (hw1 : ¬ 1/2 < wobble) (hw2 : wobble < -(1/2)) :
    lipSyncFrame average expressionFactor wobble =
      { aa := min 1 (min 1 (average / 100) * expressionFactor * (3/2)),
        ih := min 1 (min 1 (average / 100) * expressionFactor * (3/2))
                * (3/10),
        ou := 0, ee := 0, oh := 0 } := by
  simp only [lipSyncFrame]
  rw [if_pos h, if_neg hw1, if_pos hw2]

theorem lipSyncFrame_loud_mid (average expressionFactor wobble : ℚ)
    (h : 5/100 < min 1 (average / 100) * expressionFactor)
    (hw1 : ¬ 1/2 < wobble) (hw2 : ¬ wobble < -(1/2)) :
    lipSyncFrame average expressionFactor wobble =
      { aa := min 1 (min 1 (average / 100) * expressionFactor * (3/2)),
        ih := 0, ou := 0, ee := 0, oh := 0 } := by
  simp only [lipSyncFrame]
  rw [if_pos h, if_neg hw1, if_neg hw2]

/-- C10: every lip-sync frame leaves `ee` and `ou` at zero; when the
scaled volume is at most 0.05 all five vowels stay at their reset value
zero; otherwise at most `aa` plus one of `oh` or `ih` is non-zero, each
bounded by 1. -/
theorem lipSync_frame_bounds (average expressionFactor wobble : ℚ) :
    (lipSyncFrame average expressionFactor wobble).ee = 0 ∧
    (lipSyncFrame average expressionFactor wobble).ou = 0 ∧
    (min 1 (average / 100) * expressionFactor ≤ 5/100 →
      lipSyncFrame average expressionFactor wobble =
        { aa := 0, ih := 0, ou := 0, ee := 0, oh := 0 }) ∧
    (5/100 < min 1 (average / 100) * expressionFactor →
      (lipSyncFrame average expressionFactor wobble).aa ≤ 1 ∧
      (lipSyncFrame average expressionFactor wobble).oh ≤ 1 ∧
      (lipSyncFrame average expressionFactor wobble).ih ≤ 1 ∧
      ((lipSyncFrame average expressionFactor wobble).oh = 0 ∨
       (lipSyncFrame average expressionFactor wobble).ih = 0)) := by
  by_cases hvol : 5/100 < min 1 (average / 100) * expressionFactor
  · have hopen : min 1 (min 1 (average / 100) * expressionFactor * (3/2)) ≤ 1 :=
      min_le_left _ _
    have himp : min 1 (average / 100) * expressionFactor ≤ 5/100 → False :=
      fun hle => absurd hvol (not_lt.mpr hle)
    by_cases hw1 : 1/2 < wobble
    · rw [lipSyncFrame_loud_oh average expressionFactor wobble hvol hw1]
      exact ⟨rfl, rfl, fun hle => absurd hle (fun hle => himp hle),
        fun _ => ⟨hopen, by linarith, by norm_num, Or.inr rfl⟩⟩
    · by_cases hw2 : wobble < -(1/2)
      · rw [lipSyncFrame_loud_ih average expressionFactor wobble hvol hw1 hw2]
        exact ⟨rfl, rfl, fun hle => absurd hle (fun hle => himp hle),
          fun _ => ⟨hopen, by norm_num, by linarith, Or.inl rfl⟩⟩
      · rw [lipSyncFrame_loud_mid average expressionFactor wobble hvol hw1 hw2]
        exact ⟨rfl, rfl, fun hle => absurd hle (fun hle => himp hle),
          fun _ => ⟨hopen, by norm_num, by norm_num, Or.inl rfl⟩⟩
  · rw [lipSyncFrame_quiet average expressionFactor wobble hvol]
    exact ⟨rfl, rfl, fun _ => rfl, fun hlt => absurd hlt hvol⟩

/-! ## The system instruction sent at session open

`useGeminiLive` builds the instruction as a template literal whose first
segment is `You are ${characterName || 'a 3D avatar'}. `; the `||`
falls back to `'a 3D avatar'` exactly when `characterName` is the empty
string. -/

def systemInstruction (characterName scenario personality : String) :
    String :=
  "You are " ++
  (if characterName = "" then "a 3D avatar" else characterName) ++
  ". \n            The current scenario is: \"" ++ scenario ++
  "\". \n            Your personality is: \"" ++ personality ++
  "\".\n            Act appropriately for this scenario and personality. \n            If the user is silent initially, introduce yourself and the situation confidently using your name (" ++
  characterName ++
  "). \n            Your voice should match the character's personality.\n            Keep responses concise and conversational."

theorem systemInstruction_open (n sc p : String) :
    systemInstruction n sc p =
      ("You are " ++ (if n = "" then "a 3D avatar" else n)) ++
      (". \n            The current scenario is: \"" ++
        (sc ++ ("\". \n            Your personality is: \"" ++
          (p ++ ("\".\n            Act appropriately for this scenario and personality. \n            If the user is silent initially, introduce yourself and the situation confidently using your name (" ++
            (n ++ "). \n            Your voice should match the character's personality.\n            Keep responses concise and conversational.")))))) := by
  simp only [systemInstruction, String.append_assoc]

/-- C8: when the character name is the empty string, the system
instruction sent at session open opens with the fallback identity
`a 3D avatar`; for every non-empty character name, it opens with that
name. -/
theorem system_instruction_identity
    (characterName scenario personality : String) :
    (characterName = "" →
      ∃ rest, systemInstruction characterName scenario personality =
        "You are a 3D avatar" ++ rest) ∧
    (characterName ≠ "" →
      ∃ rest, systemInstruction characterName scenario personality =
        ("You are " ++ characterName) ++ rest) := by
  constructor
  · intro hn
    subst hn
    have h0 := systemInstruction_open "" scenario personality
    rw [if_pos rfl,
      show ("You are " : String) ++ "a 3D avatar" = "You are a 3D avatar"
        from by decide] at h0
    exact ⟨_, h0⟩
  · intro hn
    have h0 := systemInstruction_open characterName scenario personality
    rw [if_neg hn] at h0
    exact ⟨_, h0⟩

end MoeCall
